import Mathlib

/-!
Shallow embedding of the Editor.js "Lessons" heading block
(src/src/index.js) and proofs about its level-normalization and
rendering state machine.

Modelling conventions:
 - JavaScript runtime values reaching the widget are modelled by the
   inductive JSVal, restricted to the shapes the code actually
   inspects: primitives plus records carrying the two fields the code
   reads, text and level.  typeof, truthiness, string coercion and
   parseInt follow the JavaScript semantics on those shapes.
 - Thrown TypeErrors are modelled by Except.error with a message.
 - A DOM element is modelled by its tag name, its innerHTML string and
   whether it currently has a parent node (attached).  Presentation
   attributes (CSS class, placeholder dataset, contentEditable, the
   icon SVG of a level descriptor) carry no behaviour the code ever
   branches on and are omitted.
 - The popup appended to document.body by createPopUp is modelled by a
   boolean flag on the controller state.
-/

namespace EditorLessons

/-- JavaScript-like runtime values, restricted to the shapes the widget
manipulates.  An object is modelled by the two fields the code reads
(text and level); a field that is absent is the value undefined. -/
inductive JSVal where
  | null
  | undefined
  | str (s : String)
  | num (n : Int)
  | bool (b : Bool)
  | obj (text : JSVal) (level : JSVal)
deriving DecidableEq, Repr

/-- JavaScript typeof.  Note typeof null = "object": this is what lets
null slip through the guard in normalizeData. -/
def jsTypeof : JSVal → String
  | .null => "object"
  | .undefined => "undefined"
  | .str _ => "string"
  | .num _ => "number"
  | .bool _ => "boolean"
  | .obj _ _ => "object"

/-- Reading v.text: throws a TypeError on null and undefined, yields
undefined on other primitives, and the stored field on objects. -/
def getText : JSVal → Except String JSVal
  | .null => .error "TypeError: cannot read text of null"
  | .undefined => .error "TypeError: cannot read text of undefined"
  | .obj t _ => .ok t
  | _ => .ok .undefined

/-- Reading v.level, symmetric to getText. -/
def getLevel : JSVal → Except String JSVal
  | .null => .error "TypeError: cannot read level of null"
  | .undefined => .error "TypeError: cannot read level of undefined"
  | .obj _ l => .ok l
  | _ => .ok .undefined

/-- JavaScript truthiness on the modelled values. -/
def truthy : JSVal → Bool
  | .null => false
  | .undefined => false
  | .str s => s != ""
  | .num n => n != 0
  | .bool b => b
  | .obj _ _ => true

/-- JavaScript String conversion on the modelled values. -/
def jsToString : JSVal → String
  | .null => "null"
  | .undefined => "undefined"
  | .str s => s
  | .num n => toString n
  | .bool b => toString b
  | .obj _ _ => "[object Object]"

/-- Strip leading and trailing whitespace from a character list. -/
def trimChars (cs : List Char) : List Char :=
  ((cs.dropWhile Char.isWhitespace).reverse.dropWhile Char.isWhitespace).reverse

/-- JavaScript String.prototype.trim. -/
def jsTrim (s : String) : String := String.mk (trimChars s.data)

/-- Value of a non-empty digit run. -/
def digitsVal (cs : List Char) : Nat :=
  cs.foldl (fun a c => a * 10 + (c.toNat - 48)) 0

/-- parseInt on a string: skip leading whitespace, optional sign,
then a leading digit run; none models NaN. -/
def parseIntStr (s : String) : Option Int :=
  let cs := s.data.dropWhile Char.isWhitespace
  match cs with
  | '-' :: rest =>
      let ds := rest.takeWhile Char.isDigit
      if ds = [] then none else some (-(digitsVal ds : Int))
  | '+' :: rest =>
      let ds := rest.takeWhile Char.isDigit
      if ds = [] then none else some ((digitsVal ds : Int))
  | _ =>
      let ds := cs.takeWhile Char.isDigit
      if ds = [] then none else some ((digitsVal ds : Int))

/-- parseInt on an arbitrary value: numbers pass through (the model has
only integral numbers), everything else is converted to a string first;
none models NaN. -/
def jsParseInt (v : JSVal) : Option Int :=
  match v with
  | .num n => some n
  | _ => parseIntStr (jsToString v)

/-- A level descriptor: number and tag (the icon SVG is display-only
and omitted). -/
structure Level where
  number : Int
  tag : String
deriving DecidableEq, Repr

/-- Tool configuration: the levels restriction and defaultLevel.
none models an absent (undefined) setting; the placeholder string is
presentation-only and omitted. -/
structure LessonConfig where
  levels : Option (List Int)
  defaultLevel : Option Int
deriving DecidableEq, Repr

/-- The built-in descriptor list of the levels getter: it contains the
single entry number 2 with tag H2. -/
def availableLevels : List Level :=
  [{ number := 2, tag := "H2" }]

/-- The single built-in descriptor. -/
def lvl2 : Level := { number := 2, tag := "H2" }

/-- The levels getter: the built-in list, filtered by the configured
restriction when one is present (an empty restriction array is truthy
in JavaScript, so some [] filters everything away). -/
def levelsOf (c : LessonConfig) : List Level :=
  match c.levels with
  | some ls => availableLevels.filter (fun l => ls.contains l.number)
  | none => availableLevels

/-- The defaultLevel getter.  A configured defaultLevel of 0 is falsy
and ignored.  Returns none when levels is empty (JavaScript: the
expression levels[0] evaluates to undefined). -/
def defaultLevelOf (c : LessonConfig) : Option Level :=
  match c.defaultLevel with
  | some d =>
      if d != 0 then
        match (levelsOf c).find? (fun l => l.number == d) with
        | some userSpecified => some userSpecified
        | none => (levelsOf c).head?
      else (levelsOf c).head?
  | none => (levelsOf c).head?

/-- Reading this.defaultLevel.number: throws a TypeError when the
defaultLevel getter produced undefined. -/
def defNum (c : LessonConfig) : Except String Int :=
  match defaultLevelOf c with
  | some l => .ok l.number
  | none => .error "TypeError: cannot read number of undefined"

/-- The currentLevel getter: find the record level among the available
descriptors, falling back to defaultLevel. -/
def currentLevelOf (c : LessonConfig) (lvl : Int) : Option Level :=
  match (levelsOf c).find? (fun l => l.number == lvl) with
  | some l => some l
  | none => defaultLevelOf c

/-- The normalized block data: the text field keeps the JavaScript
value stored by the code (normalizeData does not coerce a truthy text
to a string), level is the parsed integer. -/
structure LessonData where
  text : JSVal
  level : Int
deriving DecidableEq, Repr

/-- normalizeData.  The typeof guard replaces non-objects by an empty
object, but null has typeof object and slips through, so reading
null.text throws.  Level: parseInt(data.level) when truthy (non-NaN
and nonzero), else this.defaultLevel.number (which throws when no
level descriptor is available). -/
def normalizeData (c : LessonConfig) (data : JSVal) : Except String LessonData := do
  let data := if jsTypeof data != "object" then JSVal.obj .undefined .undefined else data
  let t ← getText data
  let l ← getLevel data
  let text := if truthy t then t else JSVal.str ""
  let level ←
    match jsParseInt l with
    | some n => if n != 0 then Except.ok n else defNum c
    | none => defNum c
  Except.ok { text := text, level := level }

/-- A rendered DOM element: tag name, innerHTML, and whether it has a
parent node. -/
structure Elem where
  tagName : String
  innerHTML : String
  attached : Bool
deriving DecidableEq, Repr

/-- The controller state of one block instance: settings, the private
record, the projected element (none models this._element = null), and
whether createPopUp has appended its popup. -/
structure Lessons where
  settings : LessonConfig
  dataF : LessonData
  element : Option Elem
  popupShown : Bool
deriving DecidableEq, Repr

/-- getTag.  Empty (falsy) text triggers createPopUp and yields a bare
DIV placeholder (the boolean result records the popup side effect);
otherwise an element of the current level tag holding the text, which
throws when currentLevel is undefined. -/
def getTag (st : Lessons) : Except String (Elem × Bool) :=
  if truthy st.dataF.text then
    match currentLevelOf st.settings st.dataF.level with
    | some lv =>
        .ok ({ tagName := lv.tag, innerHTML := jsToString st.dataF.text, attached := false }, false)
    | none => .error "TypeError: cannot read tag of undefined"
  else
    .ok ({ tagName := "DIV", innerHTML := "", attached := false }, true)

/-- The constructor: stores the settings and the normalized data, with
no element projected yet. -/
def construct (c : LessonConfig) (data : JSVal) : Except String Lessons := do
  let d ← normalizeData c data
  Except.ok { settings := c, dataF := d, element := none, popupShown := false }

/-- render: project the current record to an element and store it. -/
def render (st : Lessons) : Except String (Lessons × Elem) := do
  let (el, pop) ← getTag st
  Except.ok ({ st with element := some el, popupShown := st.popupShown || pop }, el)

/-- The data getter: synchronizes the stored text from the element's
innerHTML (throwing when no element was projected) and resolves the
level via currentLevel (throwing when it is undefined). -/
def dataGet (st : Lessons) : Except String (Lessons × LessonData) :=
  match st.element with
  | none => .error "TypeError: cannot read innerHTML of null"
  | some el =>
      match currentLevelOf st.settings st.dataF.level with
      | none => .error "TypeError: cannot read number of undefined"
      | some lv =>
          let d : LessonData := { text := .str el.innerHTML, level := lv.number }
          .ok ({ st with dataF := d }, d)

/-- The data setter.  Normalizes the incoming value; when its level
field is not undefined and the element is attached, rebuilds the
element via getTag, copies the old element's innerHTML into it and
replaces the old element in its parent; then, when the text field is
not undefined, overwrites the element's innerHTML with the normalized
text. -/
def setData (st : Lessons) (v : JSVal) : Except String Lessons := do
  let nd ← normalizeData st.settings v
  let st1 : Lessons := { st with dataF := nd }
  let lvlField ← getLevel v
  let st2 ←
    if lvlField != JSVal.undefined then
      match st1.element with
      | none => .error "TypeError: cannot read parentNode of null"
      | some el =>
          if el.attached then do
            let (newLesson, pop) ← getTag st1
            let newLesson := { newLesson with innerHTML := el.innerHTML, attached := true }
            Except.ok { st1 with element := some newLesson, popupShown := st1.popupShown || pop }
          else Except.ok st1
    else Except.ok st1
  let txtField ← getText v
  if txtField != JSVal.undefined then
    match st2.element with
    | none => Except.error "TypeError: cannot set innerHTML of null"
    | some el =>
        let newHTML := if truthy st2.dataF.text then jsToString st2.dataF.text else ""
        Except.ok { st2 with element := some { el with innerHTML := newHTML } }
  else Except.ok st2

/-- merge: reads the current record through the data getter twice (once
for text, once for level, as the source does), concatenates the other
record's text onto the live text, and applies the result through the
data setter. -/
def merge (st : Lessons) (other : JSVal) : Except String Lessons := do
  let (st1, d1) ← dataGet st
  let ot ← getText other
  let newText := jsToString d1.text ++ jsToString ot
  let (st2, d2) ← dataGet st1
  setData st2 (JSVal.obj (.str newText) (.num d2.level))

/-- Reading this.currentLevel.number: throws a TypeError when the
currentLevel getter produced undefined. -/
def currentNum (st : Lessons) : Except String Int :=
  match currentLevelOf st.settings st.dataF.level with
  | some lv => .ok lv.number
  | none => .error "TypeError: cannot read number of undefined"

/-- save: trim the element's innerHTML; an empty trimmed text yields
the empty string, a non-empty one is truthy so the stored-text
alternative of the source's ternary can never be reached; the level is
the resolved current level's number. -/
def save (st : Lessons) (toolsContent : Elem) : Except String LessonData := do
  let text := jsTrim toolsContent.innerHTML
  let tfield : JSVal :=
    if text = "" then .str ""
    else if truthy (.str text) then .str text else st.dataF.text
  let lvN ← currentNum st
  Except.ok { text := tfield, level := lvN }

/-- The switch of onPaste: tags H1 to H6 map to 1 to 6, any other tag
keeps the previously computed default. -/
def pasteTagLevel (dflt : Int) (tagName : String) : Int :=
  if tagName = "H1" then 1
  else if tagName = "H2" then 2
  else if tagName = "H3" then 3
  else if tagName = "H4" then 4
  else if tagName = "H5" then 5
  else if tagName = "H6" then 6
  else dflt

/-- Absolute distance used by the nearest-level reduce. -/
def distN (t x : Int) : Nat := (x - t).natAbs

/-- One step of the reduce: keep the current candidate only when it is
strictly nearer to the target. -/
def step (t : Int) (prev curr : Int) : Int :=
  if distN t curr < distN t prev then curr else prev

/-- The nearest-level computation: Array.prototype.reduce with no
initial value, so the first element seeds the fold and an empty array
throws a TypeError. -/
def nearestReduce (t : Int) : List Int → Except String Int
  | [] => .error "TypeError: reduce of empty array with no initial value"
  | c :: cs => .ok (List.foldl (step t) c cs)

/-- The level computed by onPaste: the default level's number (read
unconditionally, so it throws when undefined), overridden by the tag
switch, then snapped by the nearest reduce when a levels restriction
is configured. -/
def onPasteLevel (c : LessonConfig) (tagName : String) : Except String Int := do
  let dflt ← defNum c
  let base := pasteTagLevel dflt tagName
  match c.levels with
  | some ls => nearestReduce base ls
  | none => Except.ok base

/-- onPaste: compute the level for the pasted tag and store
level and innerHTML through the data setter. -/
def onPaste (st : Lessons) (tagName innerHTML : String) : Except String Lessons := do
  let level ← onPasteLevel st.settings tagName
  setData st (JSVal.obj (.str innerHTML) (.num level))

/-- The static pasteConfig tag list. -/
def pasteConfigTags : List String := ["H2"]

/-- The host pipeline render-save-reinitialize: normalize, project,
extract, and normalize the extracted record again. -/
def roundTrip (c : LessonConfig) (d : JSVal) : Except String LessonData := do
  let st ← construct c d
  let (st1, el) ← render st
  let r ← save st1 el
  normalizeData c (JSVal.obj r.text (.num r.level))

/-- A configuration with every setting absent. -/
def cfgNone : LessonConfig := { levels := none, defaultLevel := none }

/-- A configuration restricting levels to 2 and 3. -/
def cfg23 : LessonConfig := { levels := some [2, 3], defaultLevel := none }

/-- A configuration whose restriction excludes every built-in
descriptor. -/
def cfgOnly5 : LessonConfig := { levels := some [5], defaultLevel := none }

/-- Convenience builder for a controller state with a string text. -/
def stateOf (c : LessonConfig) (t : String) (n : Int) (el : Option Elem) : Lessons :=
  { settings := c, dataF := { text := .str t, level := n }, element := el, popupShown := false }

/-! ## Registry lemmas -/

theorem levelsOf_eq_nil_or (c : LessonConfig) : levelsOf c = [] ∨ levelsOf c = [lvl2] := by
  unfold levelsOf availableLevels lvl2
  cases c.levels with
  | none => exact Or.inr rfl
  | some ls =>
      by_cases h : (2 : Int) ∈ ls
      · exact Or.inr (by simp [List.filter, h])
      · exact Or.inl (by simp [List.filter, h])

theorem levelsOf_singleton (c : LessonConfig) (h : levelsOf c ≠ []) : levelsOf c = [lvl2] :=
  (levelsOf_eq_nil_or c).resolve_left h

theorem defaultLevelOf_of_ne_nil (c : LessonConfig) (h : levelsOf c ≠ []) :
    defaultLevelOf c = some lvl2 := by
  have h2 := levelsOf_singleton c h
  unfold defaultLevelOf
  rw [h2]
  cases c.defaultLevel with
  | none => rfl
  | some d =>
      by_cases hd : d != 0
      · simp only [hd, if_true, List.find?]
        by_cases he : lvl2.number == d <;> simp [he]
      · simp [hd]

theorem defaultLevelOf_of_nil (c : LessonConfig) (h : levelsOf c = []) :
    defaultLevelOf c = none := by
  unfold defaultLevelOf
  rw [h]
  cases c.defaultLevel with
  | none => rfl
  | some d =>
      by_cases hd : d != 0 <;> simp [hd, List.find?]

theorem currentLevelOf_of_ne_nil (c : LessonConfig) (n : Int) (h : levelsOf c ≠ []) :
    currentLevelOf c n = some lvl2 := by
  have h2 := levelsOf_singleton c h
  unfold currentLevelOf
  rw [h2]
  by_cases he : lvl2.number == n
  · simp [List.find?, he]
  · simp only [List.find?, he]
    simpa using defaultLevelOf_of_ne_nil c h

theorem defNum_of_ne_nil (c : LessonConfig) (h : levelsOf c ≠ []) :
    defNum c = Except.ok 2 := by
  unfold defNum
  rw [defaultLevelOf_of_ne_nil c h]
  rfl

/-! ## The nearest-level fold -/

/-- The seeded fold of the nearest-level reduce returns the first
element of the seeded list attaining the minimal distance to the
target: it is an element of the list, no element is strictly nearer,
and every element strictly before it is strictly farther. -/
theorem foldl_step_spec (t : Int) :
    ∀ (cs : List Int) (a : Int),
      ∃ i, i < (a :: cs).length ∧ (a :: cs).getD i 0 = List.foldl (step t) a cs ∧
        (∀ j, j < (a :: cs).length →
          distN t (List.foldl (step t) a cs) ≤ distN t ((a :: cs).getD j 0)) ∧
        (∀ j, j < i → distN t ((a :: cs).getD j 0) > distN t (List.foldl (step t) a cs)) := by
  intro cs
  induction cs with
  | nil =>
      intro a
      refine ⟨0, by simp, by simp, ?_, ?_⟩
      · intro j hj
        have hj0 : j = 0 := by simpa using Nat.lt_one_iff.mp (by simpa using hj)
        subst hj0
        simp
      · intro j hj
        exact absurd hj (Nat.not_lt_zero j)
  | cons c cs ih =>
      intro a
      have hfold : List.foldl (step t) a (c :: cs) = List.foldl (step t) (step t a c) cs := rfl
      obtain ⟨i, hi, hget, hmin, hstrict⟩ := ih (step t a c)
      by_cases h : distN t c < distN t a
      · have hs : step t a c = c := by simp [step, h]
        rw [hs] at hi hget hmin hstrict
        refine ⟨i + 1, ?_, ?_, ?_, ?_⟩
        · simpa using Nat.succ_lt_succ (by simpa using hi)
        · simpa [hfold, hs] using hget
        · intro j hj
          rw [hfold, hs]
          match j with
          | 0 =>
              have h0 := hmin 0 (by simp)
              simp only [List.getD_cons_zero] at h0 ⊢
              exact le_trans h0 (le_of_lt (by simpa using h))
          | j + 1 =>
              have hj' : j < (c :: cs).length := by simpa using hj
              simpa using hmin j hj'
        · intro j hj
          rw [hfold, hs]
          match j with
          | 0 =>
              have h0 := hmin 0 (by simp)
              simp only [List.getD_cons_zero] at h0 ⊢
              exact lt_of_le_of_lt h0 (by simpa using h)
          | j + 1 =>
              have hj' : j < i := by omega
              simpa using hstrict j hj'
      · have hs : step t a c = a := by simp [step, h]
        have hac : distN t a ≤ distN t c := le_of_not_lt h
        rw [hs] at hi hget hmin hstrict
        match i, hi with
        | 0, _ =>
            refine ⟨0, by simp, ?_, ?_, ?_⟩
            · simpa [hfold, hs] using hget
            · intro j hj
              rw [hfold, hs]
              have hr : List.foldl (step t) a cs = a := by
                simpa using hget.symm
              match j with
              | 0 => simp [hr]
              | 1 =>
                  simp only [List.getD_cons_succ, List.getD_cons_zero]
                  simpa [hr] using hac
              | j + 2 =>
                  have hj' : j + 1 < (a :: cs).length := by simpa using hj
                  simpa using hmin (j + 1) hj'
            · intro j hj
              exact absurd hj (Nat.not_lt_zero j)
        | k + 1, hik =>
            refine ⟨k + 2, ?_, ?_, ?_, ?_⟩
            · simpa using Nat.succ_lt_succ (by simpa using hik)
            · simpa [hfold, hs] using hget
            · intro j hj
              rw [hfold, hs]
              match j with
              | 0 =>
                  have h0 := hmin 0 (by simp)
                  simpa using h0
              | 1 =>
                  have h0 := hmin 0 (by simp)
                  simp only [List.getD_cons_zero] at h0
                  simp only [List.getD_cons_succ, List.getD_cons_zero]
                  exact le_trans h0 hac
              | j + 2 =>
                  have hj' : j + 1 < (a :: cs).length := by simpa using hj
                  simpa using hmin (j + 1) hj'
            · intro j hj
              rw [hfold, hs]
              match j with
              | 0 =>
                  have h0 := hstrict 0 (by omega)
                  simpa using h0
              | 1 =>
                  have h0 := hstrict 0 (by omega)
                  simp only [List.getD_cons_zero] at h0
                  simp only [List.getD_cons_succ, List.getD_cons_zero]
                  exact lt_of_lt_of_le h0 hac
              | j + 2 =>
                  have hj' : j + 1 < k + 1 := by omega
                  simpa using hstrict (j + 1) hj'

/-! ## Claim theorems -/

/-- C6: for every non-empty ordered sequence of integer candidates and
every integer target, the nearest computation of onPaste (a left fold
seeded with the first candidate, keeping the current candidate only on
a strictly smaller absolute difference) returns a candidate that
minimizes the absolute difference from the target, and on ties the one
occurring earliest in the sequence: every candidate strictly before
the returned one is strictly farther from the target. -/
theorem c6_nearest_first_min (t : Int) (ls : List Int) (h : ls ≠ []) :
    ∃ r i, nearestReduce t ls = Except.ok r ∧ r ∈ ls ∧ i < ls.length ∧ ls.getD i 0 = r ∧
      (∀ j, j < ls.length → distN t r ≤ distN t (ls.getD j 0)) ∧
      (∀ j, j < i → distN t r < distN t (ls.getD j 0)) := by
  match ls, h with
  | c :: cs, _ =>
      obtain ⟨i, hi, hget, hmin, hstrict⟩ := foldl_step_spec t cs c
      refine ⟨List.foldl (step t) c cs, i, rfl, ?_, hi, hget, hmin, fun j hj => hstrict j hj⟩
      rw [← hget, List.getD_eq_getElem _ _ hi]
      exact List.getElem_mem hi

/-- Witness for C6 at target 2 and candidates 3, 1: both are at
distance 1 and the fold returns the earlier candidate 3. -/
theorem c6_nearest_first_min_witness :
    (([3, 1] : List Int) ≠ []) ∧
      (∃ r i, nearestReduce 2 [3, 1] = Except.ok r ∧ r ∈ [3, 1] ∧ i < ([3, 1] : List Int).length ∧
        ([3, 1] : List Int).getD i 0 = r ∧
        (∀ j, j < ([3, 1] : List Int).length → distN 2 r ≤ distN 2 (([3, 1] : List Int).getD j 0)) ∧
        (∀ j, j < i → distN 2 r < distN 2 (([3, 1] : List Int).getD j 0))) :=
  ⟨by decide, c6_nearest_first_min 2 [3, 1] (by decide)⟩

/-- C1: the claim that initialize(data, config) returns without
failing for every input including null is refuted by the code: null
has JavaScript typeof "object", so it slips past the non-object guard
of normalizeData and reading null.text throws a TypeError, for every
configuration. -/
theorem c1_normalizeData_null_throws (c : LessonConfig) :
    normalizeData c JSVal.null = Except.error "TypeError: cannot read text of null" := rfl

/-- C8 counterexample: the error raised on an empty configured level
set is not the only error that stops construction: with the default
configuration (whose level set is non-empty), constructing from null
data also fails. -/
theorem c8_counterexample :
    construct cfgNone JSVal.null = Except.error "TypeError: cannot read text of null" ∧
      levelsOf cfgNone ≠ [] :=
  ⟨rfl, by decide⟩

/-- C8 amended: when the configured level set is empty, the
defaultLevel getter yields no descriptor, and construction from data
without a usable level fails with an error surfaced to the host rather
than being silently swallowed. -/
theorem c8_empty_levels_error (c : LessonConfig) (h : levelsOf c = []) :
    defaultLevelOf c = none ∧
      construct c (JSVal.obj .undefined .undefined) =
        Except.error "TypeError: cannot read number of undefined" := by
  have hd := defaultLevelOf_of_nil c h
  have hdn : defNum c = Except.error "TypeError: cannot read number of undefined" := by
    unfold defNum
    rw [hd]
  refine ⟨hd, ?_⟩
  have hshape : construct c (JSVal.obj .undefined .undefined) =
      ((defNum c).bind (fun lvl =>
        Except.ok ({ text := .str "", level := lvl } : LessonData))).bind (fun d =>
          Except.ok { settings := c, dataF := d, element := none, popupShown := false }) := rfl
  rw [hshape, hdn]
  rfl

/-- Witness for C8 amended at the configuration restricting levels to
5, which excludes the single built-in descriptor. -/
theorem c8_empty_levels_error_witness :
    levelsOf cfgOnly5 = [] ∧
      (defaultLevelOf cfgOnly5 = none ∧
        construct cfgOnly5 (JSVal.obj .undefined .undefined) =
          Except.error "TypeError: cannot read number of undefined") :=
  ⟨by decide, c8_empty_levels_error cfgOnly5 (by decide)⟩

/-- C9 counterexample: the data getter reads innerHTML from the
projected element without a null check, so it throws when no element
has been projected yet, refuting the claim that it returns in every
controller state. -/
theorem c9_counterexample :
    dataGet (stateOf cfgNone "Hello" 2 none) =
      Except.error "TypeError: cannot read innerHTML of null" := rfl

/-- C9 amended: whenever an element has been projected (and a level
descriptor is available), the data getter returns the up-to-date
record, synchronizing the stored text from the element's innerHTML and
resolving the level through the registry. -/
theorem c9_dataGet_ok (c : LessonConfig) (d : LessonData) (el : Elem) (p : Bool)
    (h : levelsOf c ≠ []) :
    ∃ lv, currentLevelOf c d.level = some lv ∧
      dataGet { settings := c, dataF := d, element := some el, popupShown := p } =
        Except.ok
          ({ settings := c, dataF := { text := .str el.innerHTML, level := lv.number },
             element := some el, popupShown := p },
           { text := .str el.innerHTML, level := lv.number }) := by
  refine ⟨lvl2, currentLevelOf_of_ne_nil c d.level h, ?_⟩
  simp [dataGet, currentLevelOf_of_ne_nil c d.level h]

/-- Witness for C9 amended on a concrete projected state. -/
theorem c9_dataGet_ok_witness :
    levelsOf cfgNone ≠ [] ∧
      (∃ lv, currentLevelOf cfgNone 5 = some lv ∧
        dataGet { settings := cfgNone, dataF := { text := .str "stale", level := 5 },
                  element := some { tagName := "H2", innerHTML := "live", attached := true },
                  popupShown := false } =
          Except.ok
            ({ settings := cfgNone, dataF := { text := .str "live", level := lv.number },
               element := some { tagName := "H2", innerHTML := "live", attached := true },
               popupShown := false },
             { text := .str "live", level := lv.number })) :=
  ⟨by decide,
    c9_dataGet_ok cfgNone { text := .str "stale", level := 5 }
      { tagName := "H2", innerHTML := "live", attached := true } false (by decide)⟩

/-- C3 counterexample: with stored text "Hello" and an element whose
current content is empty, save yields the empty string, not the
previously stored text: the fallback branch of the source's ternary is
unreachable because the guard already returns the empty string. -/
theorem c3_counterexample :
    save (stateOf cfgNone "Hello" 2 none)
        { tagName := "H2", innerHTML := "", attached := true } =
      Except.ok { text := JSVal.str "", level := 2 } ∧
      JSVal.str "" ≠ JSVal.str "Hello" :=
  ⟨rfl, by decide⟩

/-- C3 amended: save returns the trimmed current content of the
rendered element, so empty content yields the empty string (the
stored-text fallback is dead code), and the level is the resolved
current level's number. -/
theorem c3_save_trimmed_content (st : Lessons) (el : Elem)
    (h : levelsOf st.settings ≠ []) :
    ∃ lv, currentLevelOf st.settings st.dataF.level = some lv ∧
      save st el = Except.ok { text := .str (jsTrim el.innerHTML), level := lv.number } := by
  have hcur := currentLevelOf_of_ne_nil st.settings st.dataF.level h
  have hcn : currentNum st = Except.ok 2 := by
    unfold currentNum
    rw [hcur]
    rfl
  refine ⟨lvl2, hcur, ?_⟩
  have hshape : save st el = (currentNum st).bind (fun lvN =>
      Except.ok { text :=
        (if jsTrim el.innerHTML = "" then JSVal.str ""
         else if truthy (.str (jsTrim el.innerHTML)) then .str (jsTrim el.innerHTML)
         else st.dataF.text), level := lvN }) := rfl
  rw [hshape, hcn]
  by_cases htr : jsTrim el.innerHTML = ""
  · simp [htr, Except.bind, lvl2]
  · simp [htr, Except.bind, truthy, lvl2]

/-- Witness for C3 amended: padded content is trimmed and saved with
the resolved level 2. -/
theorem c3_save_trimmed_content_witness :
    levelsOf cfgNone ≠ [] ∧
      (∃ lv, currentLevelOf cfgNone 2 = some lv ∧
        save (stateOf cfgNone "Hello" 2 none)
            { tagName := "H2", innerHTML := "  padded  ", attached := true } =
          Except.ok { text := .str (jsTrim "  padded  "), level := lv.number }) :=
  ⟨by decide,
    c3_save_trimmed_content (stateOf cfgNone "Hello" 2 none)
      { tagName := "H2", innerHTML := "  padded  ", attached := true } (by decide)⟩

/-- C10: the levels getter never yields more than the single
descriptor number 2 with tag H2; whenever any level is available,
currentLevel resolves every requested level to that descriptor; and
the static paste-interception declaration is exactly the list with tag
H2. -/
theorem c10_registry_h2_only :
    (∀ c, levelsOf c = [] ∨ levelsOf c = [lvl2]) ∧
      (∀ c n, levelsOf c ≠ [] → currentLevelOf c n = some lvl2) ∧
      lvl2.number = 2 ∧ lvl2.tag = "H2" ∧ pasteConfigTags = ["H2"] :=
  ⟨levelsOf_eq_nil_or, fun c n h => currentLevelOf_of_ne_nil c n h, rfl, rfl, rfl⟩

/-- Witness for C10: with no restriction the level set is non-empty
and the (out-of-registry) level 7 resolves to the H2 descriptor. -/
theorem c10_registry_h2_only_witness :
    levelsOf cfgNone ≠ [] ∧ currentLevelOf cfgNone 7 = some lvl2 :=
  ⟨by decide, c10_registry_h2_only.2.1 cfgNone 7 (by decide)⟩

/-! ## Normalization and setter lemmas -/

theorem normalizeData_str_num (c : LessonConfig) (a : String) (n : Int) (hn : n ≠ 0) :
    normalizeData c (JSVal.obj (.str a) (.num n)) = Except.ok { text := .str a, level := n } := by
  unfold normalizeData
  by_cases ha : a = ""
  · subst ha
    simp [jsTypeof, getText, getLevel, truthy, jsParseInt, hn, Except.bind, Bind.bind, Except.instMonad]
  · simp [jsTypeof, getText, getLevel, truthy, jsParseInt, hn, ha, Except.bind, Bind.bind, Except.instMonad]

theorem normalizeData_undef_num (c : LessonConfig) (n : Int) (hn : n ≠ 0) :
    normalizeData c (JSVal.obj .undefined (.num n)) =
      Except.ok { text := .str "", level := n } := by
  unfold normalizeData
  simp [jsTypeof, getText, getLevel, truthy, jsParseInt, hn, Except.bind, Bind.bind, Except.instMonad]

/-- The data setter on a record-shaped input with string text and
integral nonzero level, given a projected element and a non-empty
level set: it always succeeds, stores the normalized record, and ends
with an element whose content is the new text; when the old element
was attached and the text non-empty, the element was rebuilt to the
resolved level's tag without opening the popup. -/
theorem setData_ok (c : LessonConfig) (d : LessonData) (el : Elem) (p : Bool)
    (a : String) (n : Int) (h : levelsOf c ≠ []) (hn : n ≠ 0) :
    ∃ el2 p2,
      setData { settings := c, dataF := d, element := some el, popupShown := p }
          (JSVal.obj (.str a) (.num n)) =
        Except.ok { settings := c, dataF := { text := .str a, level := n },
                    element := some el2, popupShown := p2 } ∧
      el2.innerHTML = a ∧ el2.attached = el.attached ∧
      (el.attached = true → a ≠ "" →
        el2 = { tagName := lvl2.tag, innerHTML := a, attached := true } ∧ p2 = p) := by
  have hcur : currentLevelOf c n = some lvl2 := currentLevelOf_of_ne_nil c n h
  have hnorm := normalizeData_str_num c a n hn
  by_cases hat : el.attached = true <;> by_cases ha : a = ""
  · subst ha
    refine ⟨{ tagName := "DIV", innerHTML := "", attached := true }, true, ?_, rfl, by simp [hat], ?_⟩
    · simp [setData, hnorm, getLevel, getText, getTag, truthy, jsToString, hcur, hat, Except.bind, Bind.bind, Except.instMonad]
    · intro _ hne
      exact absurd rfl hne
  · refine ⟨{ tagName := lvl2.tag, innerHTML := a, attached := true }, p, ?_, rfl, by simp [hat], ?_⟩
    · simp [setData, hnorm, getLevel, getText, getTag, truthy, jsToString, hcur, hat, ha, Except.bind, Bind.bind, Except.instMonad]
    · intro _ _
      exact ⟨rfl, rfl⟩
  · subst ha
    refine ⟨{ el with innerHTML := "" }, p, ?_, rfl, rfl, ?_⟩
    · simp [setData, hnorm, getLevel, getText, getTag, truthy, jsToString, hcur, hat, Except.bind, Bind.bind, Except.instMonad]
    · intro hat2
      exact absurd hat2 hat
  · refine ⟨{ el with innerHTML := a }, p, ?_, rfl, rfl, ?_⟩
    · simp [setData, hnorm, getLevel, getText, getTag, truthy, jsToString, hcur, hat, ha, Except.bind, Bind.bind, Except.instMonad]
    · intro hat2
      exact absurd hat2 hat

/-- The data getter on a projected state with an available level set:
it synchronizes the stored text from the element and resolves the
level to 2, the only descriptor's number. -/
theorem dataGet_eq (c : LessonConfig) (d : LessonData) (el : Elem) (p : Bool)
    (h : levelsOf c ≠ []) :
    dataGet { settings := c, dataF := d, element := some el, popupShown := p } =
      Except.ok
        ({ settings := c, dataF := { text := .str el.innerHTML, level := 2 },
           element := some el, popupShown := p },
         { text := .str el.innerHTML, level := 2 }) := by
  simp [dataGet, currentLevelOf_of_ne_nil c d.level h, lvl2]

/-- merge on a projected state with an available level set: it always
succeeds, the new record's text is the element's live content followed
by the other record's text, the new level is 2 (the resolved current
level's number), and the final element carries the concatenated
content. -/
theorem merge_ok (c : LessonConfig) (d : LessonData) (el : Elem) (p : Bool)
    (a : String) (la : JSVal) (h : levelsOf c ≠ []) :
    ∃ el2 p2,
      merge { settings := c, dataF := d, element := some el, popupShown := p }
          (JSVal.obj (.str a) la) =
        Except.ok { settings := c, dataF := { text := .str (el.innerHTML ++ a), level := 2 },
                    element := some el2, popupShown := p2 } ∧
      el2.innerHTML = el.innerHTML ++ a ∧ el2.attached = el.attached := by
  obtain ⟨el2, p2, hset, hhtml, hatt, _⟩ :=
    setData_ok c { text := .str el.innerHTML, level := 2 } el p (el.innerHTML ++ a) 2 h
      (by decide)
  refine ⟨el2, p2, ?_, hhtml, hatt⟩
  unfold merge
  rw [dataGet_eq c d el p h]
  show (do
    let ot ← getText (JSVal.obj (.str a) la)
    let newText := jsToString (JSVal.str el.innerHTML) ++ jsToString ot
    let (st2, d2) ← dataGet { settings := c, dataF := { text := .str el.innerHTML, level := 2 },
                              element := some el, popupShown := p }
    setData st2 (JSVal.obj (.str newText) (.num d2.level))) = _
  rw [show getText (JSVal.obj (.str a) la) = Except.ok (.str a) from rfl]
  show (do
    let (st2, d2) ← dataGet { settings := c, dataF := { text := .str el.innerHTML, level := 2 },
                              element := some el, popupShown := p }
    setData st2 (JSVal.obj (.str (jsToString (JSVal.str el.innerHTML) ++ jsToString (JSVal.str a)))
      (.num d2.level))) = _
  rw [dataGet_eq c { text := .str el.innerHTML, level := 2 } el p h]
  exact hset

/-- C2 counterexample: replaceRecord with only level 4 on an attached
element whose content is "Hello" rebuilds the element with tag DIV
(the pending-entry placeholder, because the normalized text is empty)
and opens the popup; the tag is neither the rank-4 kind H4 nor
resolve(4).tagName, which is H2 since the registry holds only the
level-2 descriptor. -/
theorem c2_counterexample :
    setData
        { settings := cfgNone, dataF := { text := .str "Hello", level := 2 },
          element := some { tagName := "H2", innerHTML := "Hello", attached := true },
          popupShown := false }
        (JSVal.obj .undefined (.num 4)) =
      Except.ok
        { settings := cfgNone, dataF := { text := .str "", level := 4 },
          element := some { tagName := "DIV", innerHTML := "Hello", attached := true },
          popupShown := true } ∧
      Option.map Level.tag (currentLevelOf cfgNone 4) = some "H2" ∧
      ("DIV" : String) ≠ "H4" ∧ ("DIV" : String) ≠ "H2" :=
  ⟨rfl, rfl, by decide, by decide⟩

/-- C2 amended: when the record is replaced with a nonzero level and a
non-empty text while the element is attached, the element is rebuilt
so that its tag equals the tag of LevelRegistry.resolve(record.level)
(always H2, the only descriptor) and it carries the new text; when
only the level is supplied, the text normalizes to empty, so the
element is rebuilt to the DIV pending-entry placeholder that preserves
the prior content, and the popup opens. -/
theorem c2_level_change_rebuild (c : LessonConfig) (d : LessonData) (el : Elem) (p : Bool)
    (t : String) (n : Int) (hat : el.attached = true) (h : levelsOf c ≠ [])
    (ht : t ≠ "") (hn : n ≠ 0) :
    ∃ lv, currentLevelOf c n = some lv ∧
      setData { settings := c, dataF := d, element := some el, popupShown := p }
          (JSVal.obj (.str t) (.num n)) =
        Except.ok { settings := c, dataF := { text := .str t, level := n },
                    element := some { tagName := lv.tag, innerHTML := t, attached := true },
                    popupShown := p } ∧
      setData { settings := c, dataF := d, element := some el, popupShown := p }
          (JSVal.obj .undefined (.num n)) =
        Except.ok { settings := c, dataF := { text := .str "", level := n },
                    element := some { tagName := "DIV", innerHTML := el.innerHTML,
                                      attached := true },
                    popupShown := true } := by
  have hcur : currentLevelOf c n = some lvl2 := currentLevelOf_of_ne_nil c n h
  refine ⟨lvl2, hcur, ?_, ?_⟩
  · obtain ⟨el2, p2, hset, _, _, hpin⟩ := setData_ok c d el p t n h hn
    obtain ⟨hel2, hp2⟩ := hpin hat ht
    rw [hel2, hp2] at hset
    exact hset
  · have hnorm := normalizeData_undef_num c n hn
    simp [setData, hnorm, getLevel, getText, getTag, truthy, jsToString, hcur, hat,
      Except.bind, Bind.bind, Except.instMonad]

/-- Witness for C2 amended: replacing the record with text "World" and
level 4 on an attached element rebuilds to the resolved H2 tag. -/
theorem c2_level_change_rebuild_witness :
    ({ tagName := "H2", innerHTML := "Hello", attached := true } : Elem).attached = true ∧
      levelsOf cfgNone ≠ [] ∧ ("World" : String) ≠ "" ∧ (4 : Int) ≠ 0 ∧
      (∃ lv, currentLevelOf cfgNone 4 = some lv ∧
        setData
            { settings := cfgNone, dataF := { text := .str "Hello", level := 2 },
              element := some { tagName := "H2", innerHTML := "Hello", attached := true },
              popupShown := false }
            (JSVal.obj (.str "World") (.num 4)) =
          Except.ok { settings := cfgNone, dataF := { text := .str "World", level := 4 },
                      element := some { tagName := lv.tag, innerHTML := "World",
                                        attached := true },
                      popupShown := false } ∧
        setData
            { settings := cfgNone, dataF := { text := .str "Hello", level := 2 },
              element := some { tagName := "H2", innerHTML := "Hello", attached := true },
              popupShown := false }
            (JSVal.obj .undefined (.num 4)) =
          Except.ok { settings := cfgNone, dataF := { text := .str "", level := 4 },
                      element := some { tagName := "DIV", innerHTML := "Hello",
                                        attached := true },
                      popupShown := true }) :=
  ⟨rfl, by decide, by decide, by decide,
    c2_level_change_rebuild cfgNone { text := .str "Hello", level := 2 }
      { tagName := "H2", innerHTML := "Hello", attached := true } false "World" 4
      rfl (by decide) (by decide) (by decide)⟩

/-- C4 counterexample: the render-save-reinitialize round trip is not
the identity on normalized records for every non-empty text: a level
outside the registry is replaced by the resolved level 2, and text
with surrounding whitespace is trimmed by save. -/
theorem c4_counterexample :
    (roundTrip cfgNone (JSVal.obj (.str "Hi") (.num 5)) =
        Except.ok { text := .str "Hi", level := 2 } ∧
      normalizeData cfgNone (JSVal.obj (.str "Hi") (.num 5)) =
        Except.ok { text := .str "Hi", level := 5 } ∧
      (2 : Int) ≠ 5) ∧
    (roundTrip cfgNone (JSVal.obj (.str " Hi ") (.num 2)) =
        Except.ok { text := .str "Hi", level := 2 } ∧
      normalizeData cfgNone (JSVal.obj (.str " Hi ") (.num 2)) =
        Except.ok { text := .str " Hi ", level := 2 } ∧
      JSVal.str "Hi" ≠ JSVal.str " Hi ") :=
  ⟨⟨rfl, rfl, by decide⟩, rfl, rfl, by decide⟩

/-- C4 amended: the round trip preserves the normalized record when
the text is non-empty and trim-invariant and the normalized level is
available, i.e. resolves to a descriptor carrying that very number. -/
theorem c4_roundTrip_id (c : LessonConfig) (t : String) (n : Int) (lv : Level)
    (ht : t ≠ "") (htrim : jsTrim t = t) (hn : n ≠ 0)
    (hres : currentLevelOf c n = some lv) (hnum : lv.number = n) :
    roundTrip c (JSVal.obj (.str t) (.num n)) =
        normalizeData c (JSVal.obj (.str t) (.num n)) ∧
      normalizeData c (JSVal.obj (.str t) (.num n)) =
        Except.ok { text := .str t, level := n } := by
  have hnorm := normalizeData_str_num c t n hn
  refine ⟨?_, hnorm⟩
  rw [hnorm]
  unfold roundTrip construct
  rw [hnorm]
  show (do
    let (st1, el) ← render ⟨c, ⟨.str t, n⟩, none, false⟩
    let r ← save st1 el
    normalizeData c (JSVal.obj r.text (.num r.level))) = _
  have hrender : render ⟨c, ⟨.str t, n⟩, none, false⟩ =
      Except.ok (⟨c, ⟨.str t, n⟩, some ⟨lv.tag, t, false⟩, false⟩, ⟨lv.tag, t, false⟩) := by
    simp [render, getTag, truthy, jsToString, hres, ht, Except.bind, Bind.bind,
      Except.instMonad]
  rw [hrender]
  show (do
    let r ← save ⟨c, ⟨.str t, n⟩, some ⟨lv.tag, t, false⟩, false⟩ ⟨lv.tag, t, false⟩
    normalizeData c (JSVal.obj r.text (.num r.level))) = _
  have hsave : save ⟨c, ⟨.str t, n⟩, some ⟨lv.tag, t, false⟩, false⟩ ⟨lv.tag, t, false⟩ =
      Except.ok { text := .str t, level := n } := by
    unfold save currentNum
    simp only [hres]
    simp [htrim, ht, truthy, hnum, Except.bind, Bind.bind, Except.instMonad]
  rw [hsave]
  exact hnorm

/-- Witness for C4 amended at text "Hi" and level 2 with the default
configuration. -/
theorem c4_roundTrip_id_witness :
    (("Hi" : String) ≠ "" ∧ jsTrim "Hi" = "Hi" ∧ (2 : Int) ≠ 0 ∧
        currentLevelOf cfgNone 2 = some lvl2 ∧ lvl2.number = 2) ∧
      (roundTrip cfgNone (JSVal.obj (.str "Hi") (.num 2)) =
          normalizeData cfgNone (JSVal.obj (.str "Hi") (.num 2)) ∧
        normalizeData cfgNone (JSVal.obj (.str "Hi") (.num 2)) =
          Except.ok { text := .str "Hi", level := 2 }) :=
  ⟨⟨by decide, by decide, by decide, by decide, rfl⟩,
    c4_roundTrip_id cfgNone "Hi" 2 lvl2 (by decide) (by decide) (by decide) (by decide) rfl⟩

/-- C5: the paste switch maps tags H1 through H6 to levels 1 through
6; with a configured levels restriction the mapped number is replaced
by the nearest-reduce over the configured list (the default fed to the
switch being the resolved default 2); and pasting a rank-1 element
under the restriction [2, 3] yields a record with level 2 and the
pasted inner content as text. -/
theorem c5_onPaste_mapping_nearest :
    (∀ dflt : Int, pasteTagLevel dflt "H1" = 1 ∧ pasteTagLevel dflt "H2" = 2 ∧
      pasteTagLevel dflt "H3" = 3 ∧ pasteTagLevel dflt "H4" = 4 ∧
      pasteTagLevel dflt "H5" = 5 ∧ pasteTagLevel dflt "H6" = 6) ∧
    (∀ (c : LessonConfig) (tagName : String) (ls : List Int), c.levels = some ls →
      levelsOf c ≠ [] →
      onPasteLevel c tagName = nearestReduce (pasteTagLevel 2 tagName) ls) ∧
    (∀ (d : LessonData) (el : Elem) (p : Bool) (inner : String),
      ∃ st2, onPaste ⟨cfg23, d, some el, p⟩ "H1" inner = Except.ok st2 ∧
        st2.dataF = { text := .str inner, level := 2 }) := by
  refine ⟨fun dflt => ⟨rfl, rfl, rfl, rfl, rfl, rfl⟩, ?_, ?_⟩
  · intro c tagName ls hls h
    have hdn := defNum_of_ne_nil c h
    unfold onPasteLevel
    rw [hdn]
    show (match c.levels with
      | some ls2 => nearestReduce (pasteTagLevel 2 tagName) ls2
      | none => Except.ok (pasteTagLevel 2 tagName)) =
        nearestReduce (pasteTagLevel 2 tagName) ls
    rw [hls]
  · intro d el p inner
    have h23 : levelsOf cfg23 ≠ [] := by decide
    have hpl : onPasteLevel cfg23 "H1" = Except.ok 2 := rfl
    obtain ⟨el2, p2, hset, _, _, _⟩ := setData_ok cfg23 d el p inner 2 h23 (by decide)
    refine ⟨⟨cfg23, ⟨.str inner, 2⟩, some el2, p2⟩, ?_, rfl⟩
    unfold onPaste
    rw [hpl]
    show setData ⟨cfg23, d, some el, p⟩ (JSVal.obj (.str inner) (.num 2)) = _
    exact hset

/-- Witness for C5 on the restriction [2, 3]: pasting an H1 element
with content "Title" stores level 2 and that content. -/
theorem c5_onPaste_mapping_nearest_witness :
    (cfg23.levels = some [2, 3] ∧ levelsOf cfg23 ≠ [] ∧
      onPasteLevel cfg23 "H1" = nearestReduce (pasteTagLevel 2 "H1") [2, 3]) ∧
    (∃ st2, onPaste ⟨cfg23, ⟨.str "x", 2⟩, some ⟨"H2", "x", true⟩, false⟩ "H1" "Title" =
        Except.ok st2 ∧ st2.dataF = { text := .str "Title", level := 2 }) :=
  ⟨⟨rfl, by decide, c5_onPaste_mapping_nearest.2.1 cfg23 "H1" [2, 3] rfl (by decide)⟩,
    c5_onPaste_mapping_nearest.2.2 ⟨.str "x", 2⟩ ⟨"H2", "x", true⟩ false "Title"⟩

/-- C7: merging on a projected state concatenates the other record's
text onto the current record's text (the live element content) and
keeps the current resolved level; and merging is associative on text:
merging a then b produces the same text as one merge of the
concatenation. -/
theorem c7_merge_concat_assoc (c : LessonConfig) (d : LessonData) (el : Elem) (p : Bool)
    (a b : String) (la lb lc : JSVal) (h : levelsOf c ≠ []) :
    ∃ lv, currentLevelOf c d.level = some lv ∧
      ∃ st1, merge ⟨c, d, some el, p⟩ (JSVal.obj (.str a) la) = Except.ok st1 ∧
        st1.dataF.text = .str (el.innerHTML ++ a) ∧ st1.dataF.level = lv.number ∧
        ∃ st2 st3, merge st1 (JSVal.obj (.str b) lb) = Except.ok st2 ∧
          merge ⟨c, d, some el, p⟩ (JSVal.obj (.str (a ++ b)) lc) = Except.ok st3 ∧
          st2.dataF.text = st3.dataF.text := by
  have hlv := currentLevelOf_of_ne_nil c d.level h
  obtain ⟨el2, p2, hm1, hhtml2, hatt2⟩ := merge_ok c d el p a la h
  obtain ⟨el3, p3, hm2, hhtml3, hatt3⟩ :=
    merge_ok c ⟨.str (el.innerHTML ++ a), 2⟩ el2 p2 b lb h
  obtain ⟨el4, p4, hm3, hhtml4, hatt4⟩ := merge_ok c d el p (a ++ b) lc h
  refine ⟨lvl2, hlv, ⟨c, ⟨.str (el.innerHTML ++ a), 2⟩, some el2, p2⟩, hm1, rfl, rfl,
    ⟨c, ⟨.str (el2.innerHTML ++ b), 2⟩, some el3, p3⟩,
    ⟨c, ⟨.str (el.innerHTML ++ (a ++ b)), 2⟩, some el4, p4⟩, hm2, hm3, ?_⟩
  show JSVal.str (el2.innerHTML ++ b) = JSVal.str (el.innerHTML ++ (a ++ b))
  rw [hhtml2, String.append_assoc]

/-- Witness for C7: merging "B" then "C" onto a block whose element
holds "live" gives the same text as merging "BC" at once. -/
theorem c7_merge_concat_assoc_witness :
    levelsOf cfgNone ≠ [] ∧
      (∃ lv, currentLevelOf cfgNone (5 : Int) = some lv ∧
        ∃ st1, merge ⟨cfgNone, ⟨.str "old", 5⟩, some ⟨"H2", "live", true⟩, false⟩
            (JSVal.obj (.str "B") .undefined) = Except.ok st1 ∧
          st1.dataF.text = .str ("live" ++ "B") ∧ st1.dataF.level = lv.number ∧
          ∃ st2 st3, merge st1 (JSVal.obj (.str "C") .undefined) = Except.ok st2 ∧
            merge ⟨cfgNone, ⟨.str "old", 5⟩, some ⟨"H2", "live", true⟩, false⟩
              (JSVal.obj (.str ("B" ++ "C")) .undefined) = Except.ok st3 ∧
            st2.dataF.text = st3.dataF.text) :=
  ⟨by decide,
    c7_merge_concat_assoc cfgNone ⟨.str "old", 5⟩ ⟨"H2", "live", true⟩ false "B" "C"
      .undefined .undefined .undefined (by decide)⟩

end EditorLessons
